import Mathlib

/-!
Verification of the canvas-gui view-tree core (`src/drawer2.js`).

Shallow embedding: views are heap objects identified by natural-number ids;
the heap is a total function `Nat → View`. Painting to the raster surface
(`context` fill/stroke calls, save/restore) has no effect on the modelled
state and is omitted; geometry mutation, ownership and the dispatcher
registry are modelled exactly as the source mutates them. Numbers are
modelled as `Int` (the source uses them as exact coordinates in every
scenario the claims cover).
-/

/-- A point, as the `{x, y}` records stored in `Container.relativePoints`. -/
structure Point where
  x : Int
  y : Int
deriving Repr, DecidableEq

/-- Model of `class View`: geometry fields plus the `parent` back-reference
(`null` or an owning container, modelled by the container's id).
The `bg`/`border` paint configuration only affects the raster surface,
which is outside the modelled state. -/
structure View where
  x : Int
  y : Int
  width : Int
  height : Int
  parent : Option Nat
deriving Repr, DecidableEq

/-- Model of `View.isIntersect(x, y)`:
`x >= this.x && y >= this.y && x <= this.x + this.width && y <= this.y + this.height`. -/
def View.isIntersect (v : View) (px py : Int) : Bool :=
  decide (px ≥ v.x) && decide (py ≥ v.y) &&
    decide (px ≤ v.x + v.width) && decide (py ≤ v.y + v.height)

/-- The polymorphic layout-manager strategy: the no-op base class
`LayoutManager`, or `FlowLayoutManager` with its `horizonSpace` /
`verticalSpace` configuration. -/
inductive LayoutManager where
  | base
  | flow (horizonSpace : Int) (verticalSpace : Int)
deriving Repr, DecidableEq

/-- Model of `class Container extends View`, its own fields: the ordered child list
`views` (child ids), the optional layout manager, the
`relativePoints : Map<View, {}>` (an insertion-ordered association list
keyed by child id, as a JS `Map`), and the four paddings.
The inherited `View` geometry fields are inlined. -/
structure Container where
  x : Int
  y : Int
  width : Int
  height : Int
  paddingLeft : Int
  paddingTop : Int
  paddingRight : Int
  paddingBottom : Int
  views : List Nat
  layoutManager : Option LayoutManager
  relativePoints : List (Nat × Point)
deriving Repr, DecidableEq

/-- Model of `Map.get` on `relativePoints` (first entry with the given key;
`undefined` becomes `none`). -/
def lookupRP (rps : List (Nat × Point)) (vid : Nat) : Option Point :=
  (rps.find? (fun p => p.1 == vid)).map Prod.snd

/-- The `for (let view of container.views)` loop of
`FlowLayoutManager.layout`: cursor `(x, y)`, `viewOccupyWidth =
horizonSpace + view.width`; wrap when `viewOccupyWidth + x >
availableWidth`; assign `view.x = x; view.y = y`; advance
`x += viewOccupyWidth + horizonSpace`. `view.measure(context)` is the
base `View.measure`, a no-op. -/
def flowLoop (hs vs aw : Int) : List Nat → Int → Int → (Nat → View) → (Nat → View)
  | [], _, _, heap => heap
  | vid :: rest, x, y, heap =>
    let v := heap vid
    let occupy := hs + v.width
    let x1 : Int := if occupy + x > aw then 0 else x
    let y1 : Int := if occupy + x > aw then y + v.height + vs else y
    let heap1 := Function.update heap vid { v with x := x1, y := y1 }
    flowLoop hs vs aw rest (x1 + occupy + hs) y1 heap1

/-- Model of `LayoutManager.layout(container, context)`: no-op for the base class;
`FlowLayoutManager.layout` runs `flowLoop` from cursor `(0, 0)` with
`availableWidth = container.width - (paddingLeft + paddingRight)`. -/
def LayoutManager.layout : LayoutManager → Container → (Nat → View) → (Nat → View)
  | .base, _, heap => heap
  | .flow hs vs, c, heap =>
      flowLoop hs vs (c.width - (c.paddingLeft + c.paddingRight)) c.views 0 0 heap

/-- The `this.views.forEach(...)` body of `Container.draw`: look up the
child's relative point, capturing `{x: view.x, y: view.y}` if absent;
then set `view.x = paddingLeft + this.x + point.x` and
`view.y = paddingTop + this.y + point.y`; the child's own draw inside
`save`/`restore` paints only and changes no modelled state (a plain
`View.draw`, and even a nested `Container.draw` never mutates the
child's own geometry). Returns the updated map and heap. -/
def Container.drawLoop (cx cy pl pt : Int) :
    List Nat → List (Nat × Point) → (Nat → View) → List (Nat × Point) × (Nat → View)
  | [], rps, heap => (rps, heap)
  | vid :: rest, rps, heap =>
    let v := heap vid
    let pr : Point × List (Nat × Point) :=
      match lookupRP rps vid with
      | some p => (p, rps)
      | none => (⟨v.x, v.y⟩, rps ++ [(vid, ⟨v.x, v.y⟩)])
    let heap1 := Function.update heap vid
      { v with x := pl + cx + pr.1.x, y := pt + cy + pr.1.y }
    Container.drawLoop cx cy pl pt rest pr.2 heap1

/-- Model of `Container.draw(context)`: `super.draw` paints only; then
`this.layoutManager.layout(this, context)` if attached; then the child
loop. Returns the container (its `relativePoints` possibly extended)
and the updated heap. -/
def Container.draw (c : Container) (heap : Nat → View) : Container × (Nat → View) :=
  let heap1 := match c.layoutManager with
    | some lm => lm.layout c heap
    | none => heap
  let res := Container.drawLoop c.x c.y c.paddingLeft c.paddingTop c.views c.relativePoints heap1
  ({ c with relativePoints := res.1 }, res.2)

/-- Iterate `N` consecutive `Container.draw` calls. -/
def Container.drawN : Nat → Container × (Nat → View) → Container × (Nat → View)
  | 0, s => s
  | n + 1, s => Container.drawN n (Container.draw s.1 s.2)

/-- Model of `Container.addChild(view)`: throws `Error("the view has related a
container.")` (the OwnershipConflict error) when `view.parent` is
non-null, leaving all state as it was at the throw; otherwise sets
`view.parent = this` (`cid` is the container's identity) and pushes the
view onto `this.views`. The returned `Option String` is the thrown
error, `none` on success. -/
def Container.addChild (c : Container) (cid : Nat) (heap : Nat → View) (vid : Nat) :
    (Container × (Nat → View)) × Option String :=
  let v := heap vid
  match v.parent with
  | some _ => ((c, heap), some "the view has related a container.")
  | none =>
      (({ c with views := c.views ++ [vid] },
        Function.update heap vid { v with parent := some cid }), none)

/-- Model of `Container.removeChild(view)`: `indexOf` / `splice(index, 1)` removes
the first occurrence when present and nulls `view.parent`; otherwise
nothing happens. `relativePoints` is not touched in either case. -/
def Container.removeChild (c : Container) (heap : Nat → View) (vid : Nat) :
    Container × (Nat → View) :=
  if vid ∈ c.views then
    ({ c with views := c.views.erase vid },
     Function.update heap vid { heap vid with parent := none })
  else (c, heap)

/-- Model of `Map.set` on `Drawer.registerViews`: replace the value in place if the
key is present (keeping its insertion position), else append. -/
def mapSet (m : List (Nat × Nat)) (k v : Nat) : List (Nat × Nat) :=
  if m.any (fun p => p.1 == k) then
    m.map (fun p => if p.1 == k then (k, v) else p)
  else m ++ [(k, v)]

/-- Model of `Drawer.registerMouseEvent(view, eventHandle)`:
`this.registerViews.set(view, eventHandle)`. The registry is the JS
`Map` in insertion order; views and handlers are identified by ids. -/
def Drawer.registerMouseEvent (registerViews : List (Nat × Nat)) (vid handle : Nat) :
    List (Nat × Nat) :=
  mapSet registerViews vid handle

/-- Model of `Drawer.handleEvent(event)`: `this.registerViews.forEach((eventHandle,
view) => { if (view.isIntersect(event.x, event.y)) eventHandle(event); })`.
Returns the sequence of handler ids invoked (each invoked with the one
dispatched event), in the registry's insertion order. -/
def Drawer.handleEvent (registerViews : List (Nat × Nat)) (heap : Nat → View)
    (ex ey : Int) : List Nat :=
  match registerViews with
  | [] => []
  | (vid, handle) :: rest =>
    if (heap vid).isIntersect ex ey then
      handle :: Drawer.handleEvent rest heap ex ey
    else
      Drawer.handleEvent rest heap ex ey

/-! ## Concrete states used to instantiate the theorems -/

/-- A container at `(3, 4)` with `paddingLeft = 1`, `paddingTop = 2`, one
child (id 0) whose relative origin `(5, 7)` is already recorded. -/
def exC1 : Container := ⟨3, 4, 100, 100, 1, 2, 0, 0, [0], none, [(0, ⟨5, 7⟩)]⟩

/-- A heap whose every view sits at `(0, 0)` with size `10 × 10`, owned by
container 0. -/
def exC1Heap : Nat → View := fun _ => ⟨0, 0, 10, 10, some 0⟩

/-- An empty container at the origin with no padding and no children. -/
def exC2 : Container := ⟨0, 0, 100, 100, 0, 0, 0, 0, [], none, []⟩

/-- A heap where view 1 is already owned by container 5 and every other
view is unowned at `(2, 3)`. -/
def exC2Heap : Nat → View := fun i =>
  if i = 1 then ⟨0, 0, 10, 10, some 5⟩ else ⟨2, 3, 10, 10, none⟩

/-- A container of width 100 (no padding) with two children and a
zero-gap flow layout manager. -/
def exC3 : Container := ⟨0, 0, 100, 100, 0, 0, 0, 0, [0, 1], some (.flow 0 0), []⟩

/-- A heap where child 0 is `60 × 10` and child 1 is `60 × 30`, so child 1
wraps and the two heights differ. -/
def exC3Heap : Nat → View := fun i =>
  if i = 0 then ⟨0, 0, 60, 10, none⟩ else ⟨0, 0, 60, 30, none⟩

/-- A container of width 100 (no padding) with a single child and a
zero-gap flow layout manager. -/
def exC4 : Container := ⟨0, 0, 100, 100, 0, 0, 0, 0, [0], some (.flow 0 0), []⟩

/-- A heap whose single child is `150 × 20`: wider than the available
content width 100. -/
def exC4Heap : Nat → View := fun _ => ⟨0, 0, 150, 20, none⟩

/-- A container at the origin with one child (id 0) and no layout
manager; its relative-point map starts empty. -/
def exC5 : Container := ⟨0, 0, 100, 100, 0, 0, 0, 0, [0], none, []⟩

/-- A heap whose every view sits at `(5, 7)`, sized `10 × 10`, owned by
container 0. -/
def exC5Heap : Nat → View := fun _ => ⟨5, 7, 10, 10, some 0⟩

/-- The state after the first `Container.draw` of `exC5`: the relative
origin `(5, 7)` of child 0 has been captured. -/
def exC5Step1 : Container × (Nat → View) := Container.draw exC5 exC5Heap

/-- The state after then removing child 0 from the drawn container. -/
def exC5Removed : Container × (Nat → View) :=
  Container.removeChild exC5Step1.1 exC5Step1.2 0

/-- A second container ("the different container" of claim C5) at
`(10, 10)` that also lists view 0 as its child but has recorded no
relative origin for it. -/
def exC5b : Container := ⟨10, 10, 100, 100, 0, 0, 0, 0, [0], none, []⟩

/-- A heap whose every view sits at `(8, 9)`, owned by container 1. -/
def exC5Heap2 : Nat → View := fun _ => ⟨8, 9, 10, 10, some 1⟩

/-- A container at the origin, width 100, one child, initially without a
layout manager. -/
def exC6 : Container := ⟨0, 0, 100, 50, 0, 0, 0, 0, [0], none, []⟩

/-- A heap whose every view sits at `(5, 7)`, sized `10 × 10`. -/
def exC6Heap : Nat → View := fun _ => ⟨5, 7, 10, 10, some 0⟩

/-- State after the first draw of `exC6`: relative origin `(5, 7)`
captured for child 0. -/
def exC6Step1 : Container × (Nat → View) := Container.draw exC6 exC6Heap

/-- The drawn container with a zero-gap `FlowLayoutManager` attached
afterwards. -/
def exC6b : Container := { exC6Step1.1 with layoutManager := some (.flow 0 0) }

/-- State after the second draw, now under the flow layout manager
(whose pass rewrites child 0 to `(0, 0)` before the child loop runs). -/
def exC6Step2 : Container × (Nat → View) := Container.draw exC6b exC6Step1.2

/-- A container whose child list holds ids 1 and 2 only, with a recorded
relative point for view 0. -/
def exC10 : Container := ⟨0, 0, 100, 100, 0, 0, 0, 0, [1, 2], none, [(0, ⟨3, 4⟩)]⟩

/-- A heap whose every view is owned by container 9. -/
def exC10Heap : Nat → View := fun _ => ⟨5, 7, 10, 10, some 9⟩

/-! ## Helper lemmas about the relative-point map and the loops -/

lemma lookupRP_append (rps l : List (Nat × Point)) (vid : Nat) :
    lookupRP (rps ++ l) vid = ((lookupRP rps vid).orElse fun _ => lookupRP l vid) := by
  simp [lookupRP, List.find?_append]
  cases (rps.find? fun p => p.1 == vid) <;> simp

lemma lookupRP_append_of_some {rps : List (Nat × Point)} {vid : Nat} {p : Point}
    (h : lookupRP rps vid = some p) (l : List (Nat × Point)) :
    lookupRP (rps ++ l) vid = some p := by
  rw [lookupRP_append, h]; rfl

lemma lookupRP_singleton_ne {k vid : Nat} (h : k ≠ vid) (q : Point) :
    lookupRP [(k, q)] vid = none := by
  have hb : (k == vid) = false := by simpa using h
  simp [lookupRP, List.find?, hb]

lemma lookupRP_singleton_eq (vid : Nat) (q : Point) :
    lookupRP [(vid, q)] vid = some q := by
  simp [lookupRP, List.find?]

/-- The loop `Container.drawLoop` only appends to the relative-point map, so an
existing entry is never changed. -/
lemma drawLoop_lookupRP_of_some (cx cy pl pt : Int) (l : List Nat)
    {rps : List (Nat × Point)} {vid : Nat} {p : Point} (heap : Nat → View)
    (h : lookupRP rps vid = some p) :
    lookupRP (Container.drawLoop cx cy pl pt l rps heap).1 vid = some p := by
  induction l generalizing rps heap with
  | nil => simpa [Container.drawLoop]
  | cons a rest ih =>
    rw [Container.drawLoop]
    cases hrp : lookupRP rps a with
    | some q => simpa [hrp] using ih _ h
    | none => simpa [hrp] using ih _ (lookupRP_append_of_some h _)

/-- The loop `Container.drawLoop` does not touch heap entries of ids outside the
iterated list. -/
lemma drawLoop_heap_not_mem (cx cy pl pt : Int) {l : List Nat}
    (rps : List (Nat × Point)) {vid : Nat} (heap : Nat → View)
    (h : vid ∉ l) :
    (Container.drawLoop cx cy pl pt l rps heap).2 vid = heap vid := by
  induction l generalizing rps heap with
  | nil => rfl
  | cons a rest ih =>
    have ha : a ≠ vid := fun he => h (he ▸ List.mem_cons_self a rest)
    have hr : vid ∉ rest := fun hm => h (List.mem_cons_of_mem a hm)
    rw [Container.drawLoop]
    cases hrp : lookupRP rps a with
    | some q => simpa [hrp, ih _ _ hr] using Function.update_noteq (Ne.symm ha) _ heap
    | none => simpa [hrp, ih _ _ hr] using Function.update_noteq (Ne.symm ha) _ heap

/-- After `Container.drawLoop` runs over a list containing `vid`, when the
map already holds `(rx, ry)` for `vid`, the child ends at
`(pl + cx + rx, pt + cy + ry)`. -/
lemma drawLoop_pos_of_some (cx cy pl pt : Int) {l : List Nat}
    {rps : List (Nat × Point)} {vid : Nat} {p : Point} (heap : Nat → View)
    (hm : vid ∈ l) (h : lookupRP rps vid = some p) :
    ((Container.drawLoop cx cy pl pt l rps heap).2 vid).x = pl + cx + p.x ∧
      ((Container.drawLoop cx cy pl pt l rps heap).2 vid).y = pt + cy + p.y := by
  induction l generalizing rps heap with
  | nil => cases hm
  | cons a rest ih =>
    rw [Container.drawLoop]
    by_cases hav : a = vid
    · subst hav
      rw [h]
      by_cases hr : a ∈ rest
      · exact ih _ hr h
      · have hfix := drawLoop_heap_not_mem cx cy pl pt rps
          (Function.update heap a
            { heap a with x := pl + cx + p.x, y := pt + cy + p.y }) hr
        rw [hfix, Function.update_same]
        exact ⟨rfl, rfl⟩
    · have hr : vid ∈ rest := by
        cases List.mem_cons.mp hm with
        | inl he => exact absurd he.symm hav
        | inr hmm => exact hmm
      cases hrp : lookupRP rps a with
      | some q => simpa [hrp] using ih _ hr h
      | none => simpa [hrp] using ih _ hr (lookupRP_append_of_some h _)

/-- First-draw capture: when the map has no entry for `vid` and `vid` is in
the list, `Container.drawLoop` records `vid`'s heap position as seen at its
first occurrence (which is its initial position, since earlier iterations
only touch other ids). -/
lemma drawLoop_capture (cx cy pl pt : Int) {l : List Nat}
    {rps : List (Nat × Point)} {vid : Nat} (heap : Nat → View)
    (hm : vid ∈ l) (h : lookupRP rps vid = none) :
    lookupRP (Container.drawLoop cx cy pl pt l rps heap).1 vid =
      some ⟨(heap vid).x, (heap vid).y⟩ := by
  induction l generalizing rps heap with
  | nil => cases hm
  | cons a rest ih =>
    rw [Container.drawLoop]
    by_cases hav : a = vid
    · subst hav
      rw [h]
      exact drawLoop_lookupRP_of_some cx cy pl pt rest _
        (by rw [lookupRP_append, h]; exact lookupRP_singleton_eq a _)
    · have hr : vid ∈ rest := by
        cases List.mem_cons.mp hm with
        | inl he => exact absurd he.symm hav
        | inr hmm => exact hmm
      have hne : lookupRP (rps ++ [(a, ⟨(heap a).x, (heap a).y⟩)]) vid = none := by
        rw [lookupRP_append, h]
        simpa using lookupRP_singleton_ne hav _
      cases hrp : lookupRP rps a with
      | some q =>
        simpa [hrp, Function.update_noteq (Ne.symm hav)] using
          ih (Function.update heap a
            { heap a with x := pl + cx + q.x, y := pt + cy + q.y }) hr h
      | none =>
        simpa [hrp, Function.update_noteq (Ne.symm hav)] using
          ih (Function.update heap a
            { heap a with x := pl + cx + (heap a).x, y := pt + cy + (heap a).y }) hr hne

/-- The loop `flowLoop` does not touch heap entries of ids outside the iterated
list. -/
lemma flowLoop_heap_not_mem (hs vs aw : Int) {l : List Nat} (x y : Int)
    (heap : Nat → View) {vid : Nat} (h : vid ∉ l) :
    (flowLoop hs vs aw l x y heap) vid = heap vid := by
  induction l generalizing x y heap with
  | nil => rfl
  | cons a rest ih =>
    have ha : a ≠ vid := fun he => h (he ▸ List.mem_cons_self a rest)
    have hr : vid ∉ rest := fun hm => h (List.mem_cons_of_mem a hm)
    rw [flowLoop]
    simpa [ih _ _ _ hr] using Function.update_noteq (Ne.symm ha) _ heap

/-- When the head child triggers the wrap test, `flowLoop` places it at
`x = 0`, `y` advanced by that same child's height plus `verticalSpace`. -/
lemma flowLoop_wrap_head (hs vs aw x y : Int) (vid : Nat) (rest : List Nat)
    (heap : Nat → View) (hwrap : hs + (heap vid).width + x > aw) (hnin : vid ∉ rest) :
    ((flowLoop hs vs aw (vid :: rest) x y heap) vid).x = 0 ∧
      ((flowLoop hs vs aw (vid :: rest) x y heap) vid).y = y + (heap vid).height + vs := by
  rw [flowLoop]
  simp only [if_pos hwrap]
  rw [flowLoop_heap_not_mem hs vs aw _ _ _ hnin, Function.update_same]
  exact ⟨rfl, rfl⟩

/-- A single `Container.draw` paints a child with a recorded origin `p`
at `(paddingLeft + c.x + p.x, paddingTop + c.y + p.y)` (regardless of
any layout-manager pass, whose output the child loop overwrites). -/
lemma draw_pos_of_some (c : Container) (heap : Nat → View) {vid : Nat} {p : Point}
    (hm : vid ∈ c.views) (hrp : lookupRP c.relativePoints vid = some p) :
    (((Container.draw c heap).2) vid).x = c.paddingLeft + c.x + p.x ∧
      (((Container.draw c heap).2) vid).y = c.paddingTop + c.y + p.y :=
  drawLoop_pos_of_some c.x c.y c.paddingLeft c.paddingTop _ hm hrp

/-- A single `Container.draw` leaves an existing relative-point entry
unchanged. -/
lemma draw_lookupRP_of_some (c : Container) (heap : Nat → View) {vid : Nat} {p : Point}
    (hrp : lookupRP c.relativePoints vid = some p) :
    lookupRP (Container.draw c heap).1.relativePoints vid = some p :=
  drawLoop_lookupRP_of_some c.x c.y c.paddingLeft c.paddingTop c.views _ hrp

/-- After `n + 1` consecutive draws, a child with recorded origin `p`
sits at `(paddingLeft + c.x + p.x, paddingTop + c.y + p.y)`. -/
lemma drawN_succ_pos (n : Nat) (c : Container) (heap : Nat → View) {vid : Nat} {p : Point}
    (hm : vid ∈ c.views) (hrp : lookupRP c.relativePoints vid = some p) :
    ((Container.drawN (n + 1) (c, heap)).2 vid).x = c.paddingLeft + c.x + p.x ∧
      ((Container.drawN (n + 1) (c, heap)).2 vid).y = c.paddingTop + c.y + p.y := by
  induction n generalizing c heap with
  | zero => simpa [Container.drawN] using draw_pos_of_some c heap hm hrp
  | succ m ih =>
    have hrp' : lookupRP (Container.draw c heap).1.relativePoints vid = some p :=
      draw_lookupRP_of_some c heap hrp
    have hm' : vid ∈ (Container.draw c heap).1.views := hm
    have h := ih (Container.draw c heap).1 (Container.draw c heap).2 hm' hrp'
    exact h

/-! ## Claim theorems -/

/-- C1: Container.draw placement is idempotent. For every child with a
recorded relative origin `(rx, ry)`, after any `N ≥ 1` consecutive
`Container.draw` calls the child's absolute position is exactly
`(container.x + paddingLeft + rx, container.y + paddingTop + ry)`:
recomputed from the stored relative origin each draw, never
accumulated. -/
theorem c1_draw_idempotent (c : Container) (heap : Nat → View) (vid : Nat) (p : Point)
    (N : Nat) (hN : 1 ≤ N) (hm : vid ∈ c.views)
    (hrp : lookupRP c.relativePoints vid = some p) :
    ((Container.drawN N (c, heap)).2 vid).x = c.x + c.paddingLeft + p.x ∧
      ((Container.drawN N (c, heap)).2 vid).y = c.y + c.paddingTop + p.y := by
  obtain ⟨n, rfl⟩ : ∃ n, N = n + 1 := ⟨N - 1, by omega⟩
  obtain ⟨hx, hy⟩ := drawN_succ_pos n c heap hm hrp
  exact ⟨by omega, by omega⟩

/-- C1 witness: the container `exC1` at `(3, 4)` with paddings `(1, 2)`
and recorded origin `(5, 7)` for child 0 paints that child at
`(3 + 1 + 5, 4 + 2 + 7)` after two draws. -/
theorem c1_draw_idempotent_witness :
    (1 ≤ 2 ∧ 0 ∈ exC1.views ∧ lookupRP exC1.relativePoints 0 = some ⟨5, 7⟩) ∧
      ((Container.drawN 2 (exC1, exC1Heap)).2 0).x = exC1.x + exC1.paddingLeft + (Point.mk 5 7).x ∧
      ((Container.drawN 2 (exC1, exC1Heap)).2 0).y = exC1.y + exC1.paddingTop + (Point.mk 5 7).y :=
  ⟨⟨by decide, by decide, by decide⟩,
    c1_draw_idempotent exC1 exC1Heap 0 ⟨5, 7⟩ 2 (by decide) (by decide) (by decide)⟩

/-- C2: Container.addChild throws the OwnershipConflict error exactly
when the view already has a non-null owner; on failure the whole state
is unchanged (atomic); on success it sets the view's owner to the
container and appends the view to the end of the child sequence,
touching nothing else. -/
theorem c2_addChild_ownership (c : Container) (cid : Nat) (heap : Nat → View) (vid : Nat) :
    ((Container.addChild c cid heap vid).2.isSome ↔ (heap vid).parent ≠ none) ∧
    ((heap vid).parent ≠ none →
      Container.addChild c cid heap vid =
        ((c, heap), some "the view has related a container.")) ∧
    ((heap vid).parent = none →
      (Container.addChild c cid heap vid).2 = none ∧
      (Container.addChild c cid heap vid).1.1 = { c with views := c.views ++ [vid] } ∧
      (Container.addChild c cid heap vid).1.2 vid = { heap vid with parent := some cid } ∧
      ∀ w, w ≠ vid → (Container.addChild c cid heap vid).1.2 w = heap w) := by
  cases hp : (heap vid).parent with
  | none =>
    refine ⟨by simp [Container.addChild, hp], fun h => absurd rfl h, fun _ => ⟨?_, ?_, ?_, ?_⟩⟩
    · simp [Container.addChild, hp]
    · simp [Container.addChild, hp]
    · simp [Container.addChild, hp, Function.update_same]
    · intro w hw
      simp [Container.addChild, hp, Function.update_noteq hw]
  | some q =>
    have he : Container.addChild c cid heap vid =
        ((c, heap), some "the view has related a container.") := by
      simp [Container.addChild, hp]
    exact ⟨by rw [he]; simp, fun _ => he, fun h => Option.noConfusion h⟩

/-- C2 witness: adding view 1 (owned by container 5) to `exC2` throws and
changes nothing; adding the unowned view 0 succeeds, appending it and
setting its owner. -/
theorem c2_addChild_ownership_witness :
    ((exC2Heap 1).parent ≠ none ∧
      Container.addChild exC2 0 exC2Heap 1 =
        ((exC2, exC2Heap), some "the view has related a container.")) ∧
    ((exC2Heap 0).parent = none ∧
      (Container.addChild exC2 0 exC2Heap 0).1.1 = { exC2 with views := exC2.views ++ [0] } ∧
      (Container.addChild exC2 0 exC2Heap 0).1.2 0 = { exC2Heap 0 with parent := some 0 }) :=
  ⟨⟨by decide, (c2_addChild_ownership exC2 0 exC2Heap 1).2.1 (by decide)⟩,
    ⟨by decide, ((c2_addChild_ownership exC2 0 exC2Heap 0).2.2 (by decide)).2.1,
      ((c2_addChild_ownership exC2 0 exC2Heap 0).2.2 (by decide)).2.2.1⟩⟩

/-- C3 counterexample: in `exC3` (content width 100, gaps 0; child 0 is
`60 × 10`, child 1 is `60 × 30`), placing child 1 wraps, and the cursor's
y advances to 30 — the height of the child being placed — not to 10, the
previous row's child height, refuting the claim as stated. -/
theorem c3_wrap_counterexample :
    ((LayoutManager.layout (.flow 0 0) exC3 exC3Heap) 1).x = 0 ∧
    ((LayoutManager.layout (.flow 0 0) exC3 exC3Heap) 1).y = 30 ∧
    (exC3Heap 0).height + 0 = 10 ∧ (30 : Int) ≠ 10 := by decide

/-- C3 amended: whenever placing a child would make
`cursor.x + occupyWidth` (`occupyWidth = horizontalGap + child.width`)
exceed the available content width, the cursor wraps by resetting
`cursor.x` to 0 and advancing `cursor.y` by the height of the child
being placed (the one that triggered the wrap) plus `verticalGap`. -/
theorem c3_wrap_current_child_height (hs vs aw x y : Int) (vid : Nat) (rest : List Nat)
    (heap : Nat → View) (hwrap : hs + (heap vid).width + x > aw) (hnin : vid ∉ rest) :
    ((flowLoop hs vs aw (vid :: rest) x y heap) vid).x = 0 ∧
      ((flowLoop hs vs aw (vid :: rest) x y heap) vid).y = y + (heap vid).height + vs :=
  flowLoop_wrap_head hs vs aw x y vid rest heap hwrap hnin

/-- C3 witness: with gaps 0, available width 100, cursor at `x = 60`, the
`60 × 30` child 1 wraps to `(0, 0 + 30 + 0)`. -/
theorem c3_wrap_current_child_height_witness :
    ((0 : Int) + (exC3Heap 1).width + 60 > 100 ∧ (1 : Nat) ∉ ([] : List Nat)) ∧
      ((flowLoop 0 0 100 [1] 60 0 exC3Heap) 1).x = 0 ∧
      ((flowLoop 0 0 100 [1] 60 0 exC3Heap) 1).y = 0 + (exC3Heap 1).height + 0 :=
  ⟨⟨by decide, by decide⟩,
    c3_wrap_current_child_height 0 0 100 60 0 1 [] exC3Heap (by decide) (by decide)⟩

/-- C4 counterexample: in `exC4` (content width 100, gaps 0) the single
`150 × 20` child — wider than the content width — is placed at
`(0, 20)`, not `(0, 0)`: the wrap branch fires even for the first
child, refuting the claim's `y = 0`. -/
theorem c4_single_wide_counterexample :
    ((LayoutManager.layout (.flow 0 0) exC4 exC4Heap) 0).x = 0 ∧
    ((LayoutManager.layout (.flow 0 0) exC4 exC4Heap) 0).y = 20 ∧
    (20 : Int) ≠ 0 := by decide

/-- C4 amended: for every container with a FlowLayoutManager whose child
sequence is a single child wider than the available content width, the
layout pass places that child at local `x = 0` but at
`y = child.height + verticalGap` (the wrap branch fires on the first
child), raising no error. -/
theorem c4_single_wide_child (c : Container) (heap : Nat → View) (hs vs : Int)
    (vid : Nat) (hviews : c.views = [vid])
    (hwide : (heap vid).width > c.width - (c.paddingLeft + c.paddingRight))
    (hhs : 0 ≤ hs) :
    ((LayoutManager.layout (.flow hs vs) c heap) vid).x = 0 ∧
      ((LayoutManager.layout (.flow hs vs) c heap) vid).y = (heap vid).height + vs := by
  rw [LayoutManager.layout, hviews]
  have hwrap : hs + (heap vid).width + 0 > c.width - (c.paddingLeft + c.paddingRight) := by
    omega
  have h := flowLoop_wrap_head hs vs (c.width - (c.paddingLeft + c.paddingRight)) 0 0 vid []
    heap hwrap (by simp)
  exact ⟨h.1, by rw [h.2]; omega⟩

/-- C4 witness: the `exC4` configuration (gaps 0, content width 100,
single `150 × 20` child) instantiates the amended claim. -/
theorem c4_single_wide_child_witness :
    (exC4.views = [0] ∧
      (exC4Heap 0).width > exC4.width - (exC4.paddingLeft + exC4.paddingRight) ∧
      (0 : Int) ≤ 0) ∧
    ((LayoutManager.layout (.flow 0 0) exC4 exC4Heap) 0).x = 0 ∧
      ((LayoutManager.layout (.flow 0 0) exC4 exC4Heap) 0).y = (exC4Heap 0).height + 0 :=
  ⟨⟨by decide, by decide, by decide⟩,
    c4_single_wide_child exC4 exC4Heap 0 0 0 (by decide) (by decide) (by decide)⟩

/-- C5 counterexample: draw `exC5` once (capturing relative origin
`(5, 7)` for child 0), then remove child 0: the owner is cleared and the
sequence emptied, but the recorded relative origin is still present —
`removeChild` does not drop it, refuting the claim as stated. -/
theorem c5_removeChild_counterexample :
    exC5Removed.1.views = [] ∧ (exC5Removed.2 0).parent = none ∧
    lookupRP exC5Removed.1.relativePoints 0 = some ⟨5, 7⟩ ∧
    lookupRP exC5Removed.1.relativePoints 0 ≠ none := by decide

/-- C5 amended: Container.removeChild on a present view clears the view's
owner and removes it from the sequence but leaves the container's
recorded relative origin for it untouched; nevertheless, after adding
the view to a different container, that container captures a fresh
relative origin on its next draw, because relative origins are stored
per container (the new container's own map has no entry for the view). -/
theorem c5_removeChild_keeps_origin_fresh_elsewhere (c : Container) (heap : Nat → View)
    (vid : Nat) (b : Container) (heap2 : Nat → View)
    (hm : vid ∈ c.views)
    (hbm : vid ∈ b.views) (hbrp : lookupRP b.relativePoints vid = none)
    (hblm : b.layoutManager = none) :
    (Container.removeChild c heap vid).1.views = c.views.erase vid ∧
    ((Container.removeChild c heap vid).2 vid).parent = none ∧
    (Container.removeChild c heap vid).1.relativePoints = c.relativePoints ∧
    lookupRP (Container.draw b heap2).1.relativePoints vid =
      some ⟨(heap2 vid).x, (heap2 vid).y⟩ := by
  refine ⟨?_, ?_, ?_, ?_⟩
  · simp [Container.removeChild, hm]
  · simp [Container.removeChild, hm, Function.update_same]
  · simp [Container.removeChild, hm]
  · have hd : (Container.draw b heap2).1.relativePoints =
        (Container.drawLoop b.x b.y b.paddingLeft b.paddingTop b.views b.relativePoints heap2).1 := by
      simp [Container.draw, hblm]
    rw [hd]
    exact drawLoop_capture b.x b.y b.paddingLeft b.paddingTop heap2 hbm hbrp

/-- C5 witness: removing child 0 from `exC5` and drawing the different
container `exC5b` (child at `(8, 9)` in `exC5Heap2`) captures the fresh
origin `(8, 9)`. -/
theorem c5_removeChild_keeps_origin_fresh_elsewhere_witness :
    (0 ∈ exC5.views ∧ 0 ∈ exC5b.views ∧ lookupRP exC5b.relativePoints 0 = none ∧
      exC5b.layoutManager = none) ∧
    (Container.removeChild exC5 exC5Heap 0).1.views = exC5.views.erase 0 ∧
    ((Container.removeChild exC5 exC5Heap 0).2 0).parent = none ∧
    (Container.removeChild exC5 exC5Heap 0).1.relativePoints = exC5.relativePoints ∧
    lookupRP (Container.draw exC5b exC5Heap2).1.relativePoints 0 =
      some ⟨(exC5Heap2 0).x, (exC5Heap2 0).y⟩ :=
  ⟨⟨by decide, by decide, by decide, rfl⟩,
    c5_removeChild_keeps_origin_fresh_elsewhere exC5 exC5Heap 0 exC5b exC5Heap2
      (by decide) (by decide) (by decide) rfl⟩

/-- C6 counterexample: after a first draw of `exC6` captures origin
`(5, 7)`, attach a zero-gap flow layout manager (`exC6b`) and draw
again. The layout pass rewrites child 0 to `(0, 0)`, yet after the draw
the stored relative origin is still `(5, 7)` — not updated to the
layout's output — and the child is painted at `(5, 7)`, not at the
layout manager's placement. -/
theorem c6_origin_not_synced_counterexample :
    ((LayoutManager.layout (.flow 0 0) exC6b exC6Step1.2) 0).x = 0 ∧
    ((LayoutManager.layout (.flow 0 0) exC6b exC6Step1.2) 0).y = 0 ∧
    lookupRP exC6Step2.1.relativePoints 0 = some ⟨5, 7⟩ ∧
    (⟨5, 7⟩ : Point) ≠ ⟨0, 0⟩ ∧
    (exC6Step2.2 0).x = 5 ∧ (exC6Step2.2 0).y = 7 := by decide

/-- C6 amended: a child's stored relative origin is captured once on the
first Container.draw after it is added and is thereafter immutable with
no exception: even when a LayoutManager pass rewrites the child's
position during a draw, the stored origin is not updated, and the child
loop overwrites the layout's output so the painted absolute position
always equals `(container.x + paddingLeft + rx, container.y +
paddingTop + ry)` from the first-captured origin. -/
theorem c6_origin_immutable (c : Container) (heap : Nat → View) (vid : Nat) (p : Point)
    (hm : vid ∈ c.views) (hrp : lookupRP c.relativePoints vid = some p) :
    lookupRP (Container.draw c heap).1.relativePoints vid = some p ∧
      ((Container.draw c heap).2 vid).x = c.x + c.paddingLeft + p.x ∧
      ((Container.draw c heap).2 vid).y = c.y + c.paddingTop + p.y := by
  refine ⟨draw_lookupRP_of_some c heap hrp, ?_, ?_⟩
  · have h := (draw_pos_of_some c heap hm hrp).1
    omega
  · have h := (draw_pos_of_some c heap hm hrp).2
    omega

/-- C6 witness: drawing `exC6b` (flow layout manager attached, origin
`(5, 7)` recorded) keeps the stored origin and paints child 0 at
`(0 + 0 + 5, 0 + 0 + 7)`. -/
theorem c6_origin_immutable_witness :
    (0 ∈ exC6b.views ∧ lookupRP exC6b.relativePoints 0 = some ⟨5, 7⟩) ∧
    lookupRP (Container.draw exC6b exC6Step1.2).1.relativePoints 0 = some ⟨5, 7⟩ ∧
      ((Container.draw exC6b exC6Step1.2).2 0).x = exC6b.x + exC6b.paddingLeft + (Point.mk 5 7).x ∧
      ((Container.draw exC6b exC6Step1.2).2 0).y = exC6b.y + exC6b.paddingTop + (Point.mk 5 7).y :=
  ⟨⟨by decide, by decide⟩,
    c6_origin_immutable exC6b exC6Step1.2 0 ⟨5, 7⟩ (by decide) (by decide)⟩

/-- C7: Drawer.handleEvent invokes the handler of each and only each
registered (view, handler) pair whose view's bounds contain the event
point, in registration (insertion) order with no early termination —
the invoked-handler sequence is exactly the registry filtered by
`isIntersect`. -/
theorem c7_dispatch_all_overlapping (registerViews : List (Nat × Nat)) (heap : Nat → View)
    (ex ey : Int) :
    Drawer.handleEvent registerViews heap ex ey =
      (registerViews.filter fun p => (heap p.1).isIntersect ex ey).map Prod.snd := by
  induction registerViews with
  | nil => rfl
  | cons a rest ih =>
    obtain ⟨vid, handle⟩ := a
    by_cases hb : (heap vid).isIntersect ex ey
    · simp [Drawer.handleEvent, hb, ih, List.filter_cons]
    · simp [Drawer.handleEvent, hb, ih, List.filter_cons]

/-- C8: View.isIntersect returns true exactly when the point lies in the
closed rectangle `[x, x + width] × [y, y + height]`; in particular, for
a view at `(10, 10, 20, 20)`, the points `(10, 10)`, `(30, 30)` and
`(20, 20)` are inside while `(9, 10)` and `(31, 20)` are outside. -/
theorem c8_isIntersect_closed_intervals :
    (∀ (v : View) (px py : Int),
      v.isIntersect px py = true ↔
        (v.x ≤ px ∧ px ≤ v.x + v.width) ∧ (v.y ≤ py ∧ py ≤ v.y + v.height)) ∧
    (View.isIntersect ⟨10, 10, 20, 20, none⟩ 10 10 = true ∧
      View.isIntersect ⟨10, 10, 20, 20, none⟩ 30 30 = true ∧
      View.isIntersect ⟨10, 10, 20, 20, none⟩ 20 20 = true ∧
      View.isIntersect ⟨10, 10, 20, 20, none⟩ 9 10 = false ∧
      View.isIntersect ⟨10, 10, 20, 20, none⟩ 31 20 = false) := by
  constructor
  · intro v px py
    simp only [View.isIntersect, Bool.and_eq_true, decide_eq_true_eq, ge_iff_le]
    tauto
  · exact ⟨by decide, by decide, by decide, by decide, by decide⟩

/-- C9: a zero-gap FlowLayoutManager on a container of content width 100
places three children of width 40 (and any heights) at x-positions 0 and
40 on the first row and wraps the third to `x = 0` on a new row (its y
advanced by its own height). -/
theorem c9_flow_three_forty_wide (h0 h1 h2 : Int) :
    ((LayoutManager.layout (.flow 0 0) (⟨0, 0, 100, 100, 0, 0, 0, 0, [0, 1, 2], some (.flow 0 0), []⟩)
        (fun i => if i = 0 then ⟨0, 0, 40, h0, none⟩
          else if i = 1 then ⟨0, 0, 40, h1, none⟩ else ⟨0, 0, 40, h2, none⟩) 0) =
        ⟨0, 0, 40, h0, none⟩) ∧
    ((LayoutManager.layout (.flow 0 0) (⟨0, 0, 100, 100, 0, 0, 0, 0, [0, 1, 2], some (.flow 0 0), []⟩)
        (fun i => if i = 0 then ⟨0, 0, 40, h0, none⟩
          else if i = 1 then ⟨0, 0, 40, h1, none⟩ else ⟨0, 0, 40, h2, none⟩) 1) =
        ⟨40, 0, 40, h1, none⟩) ∧
    ((LayoutManager.layout (.flow 0 0) (⟨0, 0, 100, 100, 0, 0, 0, 0, [0, 1, 2], some (.flow 0 0), []⟩)
        (fun i => if i = 0 then ⟨0, 0, 40, h0, none⟩
          else if i = 1 then ⟨0, 0, 40, h1, none⟩ else ⟨0, 0, 40, h2, none⟩) 2) =
        ⟨0, h2, 40, h2, none⟩) := by
  norm_num [LayoutManager.layout, flowLoop, Function.update]

/-- C10: Container.removeChild on a view that is not in the child
sequence is a complete no-op — the container (child sequence and
relative-origin map) and the whole heap (including the view's owner
field, which may point at a different container) are returned
unchanged, and no error is raised. -/
theorem c10_removeChild_absent_noop (c : Container) (heap : Nat → View) (vid : Nat)
    (h : vid ∉ c.views) :
    Container.removeChild c heap vid = (c, heap) := by
  simp [Container.removeChild, h]

/-- C10 witness: removing view 0 — absent from `exC10.views` even though
it is owned by container 9 and has a recorded relative point — returns
the container and heap unchanged. -/
theorem c10_removeChild_absent_noop_witness :
    (0 ∉ exC10.views ∧ (exC10Heap 0).parent = some 9 ∧
      lookupRP exC10.relativePoints 0 = some ⟨3, 4⟩) ∧
    Container.removeChild exC10 exC10Heap 0 = (exC10, exC10Heap) :=
  ⟨⟨by decide, by decide, by decide⟩,
    c10_removeChild_absent_noop exC10 exC10Heap 0 (by decide)⟩
